import Mathlib

/-!
Verification of the EnzymePynetics parameter-estimation engine
(`src/EnzymeKinetics/tools/parameterestimator.py`).

The Python code is shallowly embedded: numpy arrays become `List ℚ` /
`List (List ℚ)` (row-major, one row per replicate trace), Python floats
become exact rationals, and code that can raise becomes `Except`.
Each definition mirrors one method of `ParameterEstimator`; the
correspondence is noted in its doc comment.
-/

deriving instance DecidableEq for Except

namespace EnzymePynetics

/-- One `Measurement` of the experiment container: initial substrate
concentration, enzyme concentration, optional inhibitor concentration
(absent is treated as 0 downstream), and the replicate traces
(`measurement.data`, each `replica.values` a list of readings). -/
structure Measurement where
  initial_substrate_conc : ℚ
  enzyme_conc : ℚ
  inhibitor_conc : Option ℚ
  data : List (List ℚ)
deriving DecidableEq

/-- The `EnzymeKineticsExperiment` container: stoichiometry selector string,
shared time grid, and the list of measurements. -/
structure Experiment where
  stoichiometry : String
  time : List ℚ
  measurements : List Measurement
deriving DecidableEq

/-- Marker for which concentration array a negative-value error names
(the two `ValueError` messages of `_check_negative_concentrations`:
substrate data / product data contain negative concentrations). -/
inductive ConcArray where
  | substrateData : ConcArray
  | productData : ConcArray
deriving DecidableEq

/-- Errors raised by the estimator:
`attributeError` models the `AttributeError` for an unrecognized
stoichiometry selector; `negativeConc a` models the `ValueError` whose
message names array `a`; `concNotFound c known` models the `ValueError`
raised by `_subset_data` whose message shows the requested value `c` and
the list `known` of known initial substrate concentrations. -/
inductive EstError where
  | attributeError : EstError
  | negativeConc : ConcArray → EstError
  | concNotFound : ℚ → List ℚ → EstError
deriving DecidableEq

/-- The aligned numeric arrays held on `self` after
`_initialize_measurement_data`: `time`, `substrate`, `product`
(2-D, row per replicate), `enzyme`, `initial_substrate` (1-D, per row),
and the broadcast 2-D `inhibitor` array. -/
structure Dataset where
  time : List ℚ
  substrate : List (List ℚ)
  product : List (List ℚ)
  enzyme : List ℚ
  initial_substrate : List ℚ
  inhibitor : List (List ℚ)
deriving DecidableEq

/-- The flattening loop of `_initialize_measurement_data`: one row of
`measurement_data` per replica of each measurement. -/
def measurementRows (e : Experiment) : List (List ℚ) :=
  e.measurements.flatMap (fun m => m.data)

/-- The `initial_substrate` list built by the same loop: the measurement's
initial substrate concentration, once per replica. -/
def initialSubstrateList (e : Experiment) : List ℚ :=
  e.measurements.flatMap (fun m => m.data.map (fun _ => m.initial_substrate_conc))

/-- The `enzyme` list built by the same loop. -/
def enzymeList (e : Experiment) : List ℚ :=
  e.measurements.flatMap (fun m => m.data.map (fun _ => m.enzyme_conc))

/-- The `inhibitor` list built by the same loop; an absent
(`None`) inhibitor concentration is appended as 0. -/
def inhibitorRowValues (e : Experiment) : List ℚ :=
  e.measurements.flatMap (fun m => m.data.map (fun _ => m.inhibitor_conc.getD 0))

/-- Number of time columns of `np.array(measurement_data)`
(`measurement_shape[1]`, assuming aligned rows). -/
def rowWidth (e : Experiment) : ℕ :=
  ((measurementRows e).headD []).length

/-- The broadcast inhibitor array:
`np.repeat(np.array(inhibitor), measurement_shape[1]).reshape(measurement_shape)` -
each row's inhibitor value repeated across all time columns. -/
def inhibitorGrid (e : Experiment) : List (List ℚ) :=
  (inhibitorRowValues e).map (fun v => List.replicate (rowWidth e) v)

/-- The `_calculate_substrate` method: per row, per time point,
`initial_substrate - value` over the product array (Python `zip` of
`self.product` with `self.initial_substrate`). -/
def calculate_substrate (product : List (List ℚ)) (initial_substrate : List ℚ) :
    List (List ℚ) :=
  (product.zip initial_substrate).map (fun p => p.1.map (fun value => p.2 - value))

/-- The `_calculate_product` method: per row, per time point,
`initial_substrate - value` over the substrate array. -/
def calculate_product (substrate : List (List ℚ)) (initial_substrate : List ℚ) :
    List (List ℚ) :=
  (substrate.zip initial_substrate).map (fun p => p.1.map (fun value => p.2 - value))

/-- `StoichiometryTypes.SUBSTRATE.value` -/
def stoichiometrySubstrate : String := "substrate"

/-- `StoichiometryTypes.PRODUCT.value` -/
def stoichiometryProduct : String := "product"

/-- The `_initialize_measurement_data` method: flatten the measurements,
then branch on the stoichiometry selector - measured values become the
substrate (resp. product) array and the counterpart is derived by
mass balance; any other selector raises (`AttributeError`). -/
def initialize_measurement_data (e : Experiment) : Except EstError Dataset :=
  let rows := measurementRows e
  let inits := initialSubstrateList e
  if e.stoichiometry = stoichiometrySubstrate then
    Except.ok { time := e.time, substrate := rows,
                product := calculate_product rows inits,
                enzyme := enzymeList e, initial_substrate := inits,
                inhibitor := inhibitorGrid e }
  else if e.stoichiometry = stoichiometryProduct then
    Except.ok { time := e.time, substrate := calculate_substrate rows inits,
                product := rows,
                enzyme := enzymeList e, initial_substrate := inits,
                inhibitor := inhibitorGrid e }
  else
    Except.error EstError.attributeError

/-- `np.any(a < 0)` over a 2-D array. -/
def hasNegative (a : List (List ℚ)) : Bool :=
  a.any (fun row => row.any (fun v => decide (v < 0)))

/-- The `_check_negative_concentrations` method: substrate is checked
first, then product; each check raises a `ValueError` naming the array. -/
def check_negative_concentrations (ds : Dataset) : Except EstError Unit :=
  if hasNegative ds.substrate then
    Except.error (EstError.negativeConc ConcArray.substrateData)
  else if hasNegative ds.product then
    Except.error (EstError.negativeConc ConcArray.productData)
  else
    Except.ok ()

/-- `np.diff` of a 1-D array: consecutive differences. -/
def npDiff (l : List ℚ) : List ℚ :=
  (l.zip l.tail).map (fun p => p.2 - p.1)

/-- The `_calculate_rates` method: `abs(np.diff(substrate) / np.diff(time))`,
the time-difference vector broadcast against every substrate row. The raw
experiment time grid is used (`self.data.time`). -/
def calculate_rates (time : List ℚ) (substrate : List (List ℚ)) :
    List (List ℚ) :=
  substrate.map (fun row => ((npDiff row).zip (npDiff time)).map (fun p => |p.1 / p.2|))

/-- `np.nanmax` over a (flattened) 2-D array of finite values. -/
def nanmax2 (a : List (List ℚ)) : ℚ :=
  a.flatten.maximum.unbot' 0

/-- The `_calculate_kcat` method: divide every rate by the corresponding
row's enzyme concentration (`np.repeat(enzyme, ...).reshape(...)` tiles the
enzyme value across the row) and take the global maximum. -/
def calculate_kcat (time : List ℚ) (substrate : List (List ℚ)) (enzyme : List ℚ) : ℚ :=
  nanmax2 (((calculate_rates time substrate).zip enzyme).map
    (fun p => p.1.map (fun r => r / p.2)))

/-- The `_calculate_Km` method: half the global maximum rate. -/
def calculate_Km (time : List ℚ) (substrate : List (List ℚ)) : ℚ :=
  nanmax2 (calculate_rates time substrate) / 2

/-- State built by `ParameterEstimator.__init__`: the normalized dataset
plus the two initial guesses. -/
structure Estimator where
  ds : Dataset
  initial_kcat : ℚ
  initial_Km : ℚ
deriving DecidableEq

/-- `ParameterEstimator.__init__`: normalize the measurement data, check
for negative concentrations, then compute the initial guesses. Both
failure points surface before any model exists. -/
def ParameterEstimator_init (e : Experiment) : Except EstError Estimator :=
  match initialize_measurement_data e with
  | Except.error err => Except.error err
  | Except.ok ds =>
    match check_negative_concentrations ds with
    | Except.error err => Except.error err
    | Except.ok _ =>
      Except.ok { ds := ds,
                  initial_kcat := calculate_kcat e.time ds.substrate ds.enzyme,
                  initial_Km := calculate_Km e.time ds.substrate }

/-- Resolution of one Python slice bound against an array of length `len`:
negative indices count from the end (clamped at 0), nonnegative indices
are clamped at `len`. -/
def resolveIndex (len : ℕ) (i : ℤ) : ℕ :=
  if i < 0 then ((len : ℤ) + i).toNat else min i.toNat len

/-- Resolved start of a Python slice (`None` means 0). -/
def sliceStart (len : ℕ) (o : Option ℤ) : ℕ :=
  o.elim 0 (resolveIndex len)

/-- Resolved stop of a Python slice (`None` means `len`). -/
def sliceStop (len : ℕ) (o : Option ℤ) : ℕ :=
  o.elim len (resolveIndex len)

/-- Python slice `l[start:stop]` with optional, possibly negative bounds. -/
def pySlice {α : Type} (l : List α) (start stop : Option ℤ) : List α :=
  (l.drop (sliceStart l.length start)).take
    (sliceStop l.length stop - sliceStart l.length start)

/-- `np.where(l == c)[0]`: indices (ascending) whose entry equals `c`. -/
def npWhereEq (l : List ℚ) (c : ℚ) : List ℕ :=
  (List.range l.length).filter (fun i => decide (l.getD i 0 = c))

/-- `np.unique(l)`: the distinct values of `l`, sorted ascending. -/
def npUnique (l : List ℚ) : List ℚ :=
  List.insertionSort (fun a b => a ≤ b) l.dedup

/-- The row-selection loop of `_subset_data`: for each requested
concentration, in order, raise a `ValueError` (showing the value and the
unique known concentrations) if it is absent, otherwise append the indices
of the matching rows. -/
def buildSubsetIdx (initial_substrate : List ℚ) : List ℚ → Except EstError (List ℕ)
  | [] => Except.ok []
  | c :: rest =>
    if c ∈ initial_substrate then
      match buildSubsetIdx initial_substrate rest with
      | Except.error err => Except.error err
      | Except.ok tail => Except.ok (npWhereEq initial_substrate c ++ tail)
    else
      Except.error (EstError.concNotFound c (npUnique initial_substrate))

/-- The six arrays returned by `_subset_data`. -/
structure SubsetData where
  substrate : List (List ℚ)
  product : List (List ℚ)
  enzyme : List ℚ
  initial_substrate : List ℚ
  time : List ℚ
  inhibitor : List (List ℚ)
deriving DecidableEq

/-- The `idx` computation of `_subset_data`: `np.arange` over the rows when
no filter (or an empty filter) is given, else the selection loop. -/
def subsetIdx (ds : Dataset) (initial_substrates : Option (List ℚ)) :
    Except EstError (List ℕ) :=
  match initial_substrates with
  | none => Except.ok (List.range ds.substrate.length)
  | some [] => Except.ok (List.range ds.substrate.length)
  | some cs => buildSubsetIdx ds.initial_substrate cs

/-- The `_subset_data` method: select rows by `idx`, slice the substrate
and product rows and the time grid by `[start_time_index:stop_time_index]`;
the enzyme, initial-substrate and inhibitor arrays are only row-selected. -/
def subset_data (ds : Dataset) (initial_substrates : Option (List ℚ))
    (start_time_index stop_time_index : Option ℤ) : Except EstError SubsetData :=
  match subsetIdx ds initial_substrates with
  | Except.error err => Except.error err
  | Except.ok idx =>
    Except.ok
      { substrate := idx.map
          (fun i => pySlice (ds.substrate.getD i []) start_time_index stop_time_index),
        product := idx.map
          (fun i => pySlice (ds.product.getD i []) start_time_index stop_time_index),
        enzyme := idx.map (fun i => ds.enzyme.getD i 0),
        initial_substrate := idx.map (fun i => ds.initial_substrate.getD i 0),
        time := pySlice ds.time start_time_index stop_time_index,
        inhibitor := idx.map (fun i => ds.inhibitor.getD i []) }

/-- A `KineticModel` descriptor as instantiated by `_initialize_models`:
display name, extra free-parameter names, the four `w0` slots
(`cS`, `cE`, `cP`, `cI`), the two universal initial guesses, and the
enzyme-inactivation flag. The rate-law function itself is external. -/
structure KineticModel where
  name : String
  params : List String
  cS : List (List ℚ)
  cE : List ℚ
  cP : List (List ℚ)
  cI : List (List ℚ)
  kcat_initial : ℚ
  Km_initial : ℚ
  enzyme_inactivation : Bool
deriving DecidableEq

/-- `np.all(self.inhibitor == 0)` over the full normalized inhibitor array. -/
def allZeroInhibitor (inhibitor : List (List ℚ)) : Bool :=
  inhibitor.all (fun row => row.all (fun v => decide (v = 0)))

/-- The `_initialize_models` method. The branch condition reads
`self.inhibitor` (the full normalized array), while the model `w0` slots
receive the (possibly subset) arrays passed as arguments. The dict of
models is represented as a list in insertion order (names are distinct). -/
def initialize_models (self_inhibitor : List (List ℚ)) (kcat Km : ℚ) (ei : Bool)
    (substrate product : List (List ℚ)) (enzyme : List ℚ)
    (inhibitor : List (List ℚ)) : List KineticModel :=
  if allZeroInhibitor self_inhibitor then
    [ { name := "irreversible Michaelis Menten", params := [],
        cS := substrate, cE := enzyme, cP := product, cI := inhibitor,
        kcat_initial := kcat, Km_initial := Km, enzyme_inactivation := ei },
      { name := "competitive product inhibition", params := [r"K_ic"],
        cS := substrate, cE := enzyme, cP := product, cI := product,
        kcat_initial := kcat, Km_initial := Km, enzyme_inactivation := ei },
      { name := "uncompetitive product inhibition", params := [r"K_iu"],
        cS := substrate, cE := enzyme, cP := product, cI := product,
        kcat_initial := kcat, Km_initial := Km, enzyme_inactivation := ei },
      { name := "non-competitive product inhibition", params := [r"K_iu", r"K_ic"],
        cS := substrate, cE := enzyme, cP := product, cI := product,
        kcat_initial := kcat, Km_initial := Km, enzyme_inactivation := ei },
      { name := "substrate inhibition", params := [r"K_iu"],
        cS := substrate, cE := enzyme, cP := product, cI := substrate,
        kcat_initial := kcat, Km_initial := Km, enzyme_inactivation := ei } ]
  else
    [ { name := "competitive inhibition", params := [r"K_ic"],
        cS := substrate, cE := enzyme, cP := product, cI := inhibitor,
        kcat_initial := kcat, Km_initial := Km, enzyme_inactivation := ei },
      { name := "uncompetitive inhibition", params := [r"K_iu"],
        cS := substrate, cE := enzyme, cP := product, cI := inhibitor,
        kcat_initial := kcat, Km_initial := Km, enzyme_inactivation := ei },
      { name := "non-competitive inhibition", params := [r"K_iu", r"K_ic"],
        cS := substrate, cE := enzyme, cP := product, cI := inhibitor,
        kcat_initial := kcat, Km_initial := Km, enzyme_inactivation := ei },
      { name := "partially competitive inhibition", params := [r"K_ic", r"K_iu"],
        cS := substrate, cE := enzyme, cP := product, cI := inhibitor,
        kcat_initial := kcat, Km_initial := Km, enzyme_inactivation := ei } ]

/-- Python truthiness of the `initial_substrate_concs` argument inside
`np.any([...])`: `None` and the empty list are falsy. -/
def truthyOptList (o : Option (List ℚ)) : Bool :=
  o.elim false (fun l => !l.isEmpty)

/-- Python truthiness of an optional integer index inside `np.any([...])`:
`None` and `0` are falsy. -/
def truthyOptInt (o : Option ℤ) : Bool :=
  o.elim false (fun i => decide (i ≠ 0))

/-- The subset-or-not step of `fit_models`: `_subset_data` runs only when
`np.any([initial_substrate_concs, start_time_index, stop_time_index])` is
truthy, otherwise the full normalized arrays are used as-is. -/
def fit_arrays (ds : Dataset) (initial_substrate_concs : Option (List ℚ))
    (start_time_index stop_time_index : Option ℤ) : Except EstError SubsetData :=
  if truthyOptList initial_substrate_concs || truthyOptInt start_time_index
      || truthyOptInt stop_time_index then
    subset_data ds initial_substrate_concs start_time_index stop_time_index
  else
    Except.ok { substrate := ds.substrate, product := ds.product,
                enzyme := ds.enzyme, initial_substrate := ds.initial_substrate,
                time := ds.time, inhibitor := ds.inhibitor }

/-- The model-construction part of `fit_models`: pick the working arrays,
then call `_initialize_models` on them (the branch condition still reads
the full `self.inhibitor`). -/
def fit_models_build (est : Estimator) (initial_substrate_concs : Option (List ℚ))
    (start_time_index stop_time_index : Option ℤ) (ei : Bool) :
    Except EstError (List KineticModel) :=
  match fit_arrays est.ds initial_substrate_concs start_time_index stop_time_index with
  | Except.error err => Except.error err
  | Except.ok sub =>
    Except.ok (initialize_models est.ds.inhibitor est.initial_kcat est.initial_Km ei
      sub.substrate sub.product sub.enzyme sub.inhibitor)

/-- The `w0` tuple assembled inside `residual` for data row `i`:
`(cS[i, 0], cE[i], cP[i, 0], cI[i, 0])`, index 0 always being the first
time column of the arrays the model holds. -/
def assemble_w0 (m : KineticModel) (i : ℕ) : ℚ × ℚ × ℚ × ℚ :=
  ((m.cS.getD i []).getD 0 0, m.cE.getD i 0,
   (m.cP.getD i []).getD 0 0, (m.cI.getD i []).getD 0 0)

/-- A Python float value as produced by the reporting arithmetic: either a
finite value or `nan`. -/
inductive PyFloat where
  | val : ℚ → PyFloat
  | nan : PyFloat
deriving DecidableEq

/-- The one exception the relative-standard-error computation can leak. -/
inductive PyExc where
  | zeroDivisionError : PyExc
deriving DecidableEq

/-- The `percentual_stderr` computation of `_result_overview`:
`try: stderr / value * 100 except TypeError: float("nan")`.
A `None` stderr makes `None / value` raise `TypeError`, which is caught
and becomes `nan`; a numeric stderr divided by a value of exactly `0`
raises `ZeroDivisionError` (Python float semantics), which the
`except TypeError` clause does not catch. -/
def percentual_stderr (stderr : Option ℚ) (value : ℚ) : Except PyExc PyFloat :=
  match stderr with
  | none => Except.ok PyFloat.nan
  | some s =>
    if value = 0 then Except.error PyExc.zeroDivisionError
    else Except.ok (PyFloat.val (s / value * 100))

/-- Provenance of an array returned by `_subset_data`, following numpy
semantics: integer-array (advanced) indexing as in `self.substrate[idx, a:b]`
or `self.enzyme[idx]` allocates a fresh copy, while the basic slice
`self.time[a:b]` is a view into the base buffer at the resolved start
offset. -/
inductive ArrayProvenance where
  | copy : ArrayProvenance
  | timeView : ℕ → ArrayProvenance
deriving DecidableEq

/-- Provenance of each of the six arrays returned by `_subset_data`:
five advanced-indexed copies and a basic-slice view of `self.time`. -/
structure SubsetProvenance where
  substrate : ArrayProvenance
  product : ArrayProvenance
  enzyme : ArrayProvenance
  initial_substrate : ArrayProvenance
  inhibitor : ArrayProvenance
  time : ArrayProvenance
deriving DecidableEq

/-- The provenances produced by the returns of `_subset_data` (lines
building `new_substrate` .. `new_inhibitor`): everything except `new_time`
is produced by advanced indexing. -/
def subset_provenance (ds : Dataset) (start_time_index : Option ℤ) :
    SubsetProvenance :=
  { substrate := ArrayProvenance.copy, product := ArrayProvenance.copy,
    enzyme := ArrayProvenance.copy, initial_substrate := ArrayProvenance.copy,
    inhibitor := ArrayProvenance.copy,
    time := ArrayProvenance.timeView (sliceStart ds.time.length start_time_index) }

/-- Effect on the dataset of writing `v` at position `j` of a returned
array with the given provenance: writing into a fresh copy leaves the
dataset untouched; writing through a view of `self.time` lands in the
dataset's time buffer at `offset + j`. -/
def writeThrough (ds : Dataset) (p : ArrayProvenance) (j : ℕ) (v : ℚ) : Dataset :=
  match p with
  | ArrayProvenance.copy => ds
  | ArrayProvenance.timeView off => { ds with time := ds.time.set (off + j) v }

/-! ### Concrete instances used as witnesses and counterexamples -/

/-- A small product-measured experiment: one measurement, one replicate
trace `[0, 1, 2]`, initial substrate 10, enzyme 1, no inhibitor,
time grid `[0, 1, 2]`. -/
def expA : Experiment :=
  { stoichiometry := "product", time := [0, 1, 2],
    measurements :=
      [ { initial_substrate_conc := 10, enzyme_conc := 1,
          inhibitor_conc := none, data := [[0, 1, 2]] } ] }

/-- The dataset `expA` normalizes to: substrate is derived by mass
balance from the measured product trace. -/
def dsA : Dataset :=
  { time := [0, 1, 2], substrate := [[10, 9, 8]], product := [[0, 1, 2]],
    enzyme := [1], initial_substrate := [10], inhibitor := [[0, 0, 0]] }

/-- The estimator state `ParameterEstimator.__init__` builds from `expA`:
rates are `[[1, 1]]`, so the catalytic-rate guess is 1 and the
Michaelis-constant guess is 1/2. -/
def estA : Estimator :=
  { ds := dsA, initial_kcat := 1, initial_Km := 1 / 2 }

/-- A two-row dataset whose rows are ordered by decreasing initial
substrate concentration (row 0 has initial substrate 2, row 1 has 1). -/
def dsB : Dataset :=
  { time := [0], substrate := [[1], [2]], product := [[1], [0]],
    enzyme := [1, 1], initial_substrate := [2, 1], inhibitor := [[0], [0]] }

/-- A default `KineticModel` used only to extract list heads in closed
counterexample statements. -/
def emptyModel : KineticModel :=
  { name := "", params := [], cS := [], cE := [], cP := [], cI := [],
    kcat_initial := 0, Km_initial := 0, enzyme_inactivation := false }

/-! ### Helper lemmas -/

lemma getD_of_lt {α : Type} (l : List α) (d : α) {i : ℕ} (h : i < l.length) :
    l.getD i d = l[i] := by
  simp [List.getD_eq_getElem?_getD, List.getElem?_eq_getElem h]

lemma length_flatMap_map_const (ms : List Measurement) (f : Measurement → ℚ) :
    (ms.flatMap (fun m => m.data.map (fun _ => f m))).length
      = (ms.flatMap (fun m => m.data)).length := by
  induction ms with
  | nil => rfl
  | cons m rest ih => simp only [List.flatMap_cons, List.length_append, List.length_map, ih]

lemma initialSubstrateList_length (e : Experiment) :
    (initialSubstrateList e).length = (measurementRows e).length :=
  length_flatMap_map_const e.measurements (fun m => m.initial_substrate_conc)

lemma enzymeList_length (e : Experiment) :
    (enzymeList e).length = (measurementRows e).length :=
  length_flatMap_map_const e.measurements (fun m => m.enzyme_conc)

/-! ### C10 -/

/-- C10: calling `fit_models` with `start_time_index = 0` (no filter, no
stop index), or with an empty initial-substrate filter list and no time
indices, takes the no-subsetting branch and fits against arrays identical
to the full normalized dataset, exactly as a call with no arguments does. -/
theorem c10_falsy_arguments_skip_subsetting (ds : Dataset) :
    fit_arrays ds (some []) none none = fit_arrays ds none none none
    ∧ fit_arrays ds none (some 0) none = fit_arrays ds none none none
    ∧ fit_arrays ds none none none =
        Except.ok { substrate := ds.substrate, product := ds.product,
                    enzyme := ds.enzyme, initial_substrate := ds.initial_substrate,
                    time := ds.time, inhibitor := ds.inhibitor } :=
  ⟨rfl, rfl, rfl⟩

/-! ### C3 -/

/-- C3 counterexample: a numeric standard error over a fitted value of
exactly zero does not yield a NaN-formatted percentage - the division
raises `ZeroDivisionError`, which the `except TypeError` clause does not
catch, so the exception propagates. -/
theorem c3_counterexample :
    percentual_stderr (some 1) 0 = Except.error PyExc.zeroDivisionError := by
  with_unfolding_all decide

/-- C3 amended: an undefined (`None`) standard error yields a NaN
percentage without an exception (the `TypeError` from `None / value` is
caught); a numeric standard error over a nonzero value yields the finite
percentage `stderr / value * 100`; but a numeric standard error over a
fitted value of exactly zero raises an uncaught `ZeroDivisionError`. -/
theorem c3_amended (s v : ℚ) :
    percentual_stderr none v = Except.ok PyFloat.nan
    ∧ percentual_stderr (some s) 0 = Except.error PyExc.zeroDivisionError
    ∧ (v ≠ 0 → percentual_stderr (some s) v = Except.ok (PyFloat.val (s / v * 100))) := by
  refine ⟨rfl, by simp [percentual_stderr], fun hv => by simp [percentual_stderr, hv]⟩

/-- C3 amended, instantiated: stderr 1 over value 2 gives the 50 percent
string content. -/
theorem c3_amended_witness :
    (2 : ℚ) ≠ 0
    ∧ (percentual_stderr none 2 = Except.ok PyFloat.nan
       ∧ percentual_stderr (some 1) 0 = Except.error PyExc.zeroDivisionError
       ∧ ((2 : ℚ) ≠ 0 →
          percentual_stderr (some 1) 2 = Except.ok (PyFloat.val (1 / 2 * 100)))) :=
  ⟨by norm_num, c3_amended 1 2⟩

/-! ### C2 -/

/-- C2: when every entry of the full normalized inhibitor array is zero,
`_initialize_models` returns exactly the five inhibitor-free models (with
the product/substrate arrays as inhibitory drivers); when some entry is
nonzero it returns exactly the four true-inhibitor models (all driven by
the inhibitor array); no other model set is ever produced. -/
theorem c2_model_sets (self_inhibitor : List (List ℚ)) (kcat Km : ℚ) (ei : Bool)
    (substrate product : List (List ℚ)) (enzyme : List ℚ)
    (inhibitor : List (List ℚ)) :
    (allZeroInhibitor self_inhibitor = true →
      (initialize_models self_inhibitor kcat Km ei substrate product enzyme
          inhibitor).map (fun m => (m.name, m.params, m.cI)) =
        [(r"irreversible Michaelis Menten", [], inhibitor),
         (r"competitive product inhibition", [r"K_ic"], product),
         (r"uncompetitive product inhibition", [r"K_iu"], product),
         (r"non-competitive product inhibition", [r"K_iu", r"K_ic"], product),
         (r"substrate inhibition", [r"K_iu"], substrate)])
    ∧ (allZeroInhibitor self_inhibitor = false →
      (initialize_models self_inhibitor kcat Km ei substrate product enzyme
          inhibitor).map (fun m => (m.name, m.params, m.cI)) =
        [(r"competitive inhibition", [r"K_ic"], inhibitor),
         (r"uncompetitive inhibition", [r"K_iu"], inhibitor),
         (r"non-competitive inhibition", [r"K_iu", r"K_ic"], inhibitor),
         (r"partially competitive inhibition", [r"K_ic", r"K_iu"], inhibitor)])
    ∧ (allZeroInhibitor self_inhibitor = true ↔
        ∀ row ∈ self_inhibitor, ∀ v ∈ row, v = 0) := by
  refine ⟨fun h => by simp [initialize_models, h],
          fun h => by simp [initialize_models, h],
          by simp [allZeroInhibitor]⟩

/-- C2, instantiated at an all-zero and at a nonzero inhibitor array. -/
theorem c2_model_sets_witness :
    allZeroInhibitor [[0, 0]] = true
    ∧ (initialize_models [[0, 0]] 1 1 false [[5]] [[2]] [3] [[0, 0]]).map
        (fun m => (m.name, m.params, m.cI)) =
      [(r"irreversible Michaelis Menten", [], [[0, 0]]),
       (r"competitive product inhibition", [r"K_ic"], [[2]]),
       (r"uncompetitive product inhibition", [r"K_iu"], [[2]]),
       (r"non-competitive product inhibition", [r"K_iu", r"K_ic"], [[2]]),
       (r"substrate inhibition", [r"K_iu"], [[5]])] :=
  ⟨by with_unfolding_all decide,
   (c2_model_sets [[0, 0]] 1 1 false [[5]] [[2]] [3] [[0, 0]]).1
     (by with_unfolding_all decide)⟩

/-! ### C9 -/

/-- C9 counterexample: the time array returned by `_subset_data` is not an
independent copy - it is a numpy view of `self.time`, so writing 99 into
position 0 of the array returned for `start_time_index = 1` changes the
normalized dataset's time array. -/
theorem c9_counterexample :
    (subset_provenance dsA (some 1)).time ≠ ArrayProvenance.copy
    ∧ writeThrough dsA ((subset_provenance dsA (some 1)).time) 0 99 ≠ dsA
    ∧ (writeThrough dsA ((subset_provenance dsA (some 1)).time) 0 99).time
        = [0, 99, 2] := by
  with_unfolding_all decide

/-- C9 amended: the substrate, product, enzyme, initial-substrate and
inhibitor arrays returned by `_subset_data` are fresh copies (advanced
indexing), and writes to a copy leave the dataset unchanged; the returned
time array, however, is a view of `self.time` at the resolved start
offset, and a write at position `j` of the view lands in the dataset's
time buffer at `offset + j`. The subsetting call itself performs no write. -/
theorem c9_amended (ds : Dataset) (start stop : Option ℤ) (j : ℕ) (v : ℚ) :
    (subset_provenance ds start).substrate = ArrayProvenance.copy
    ∧ (subset_provenance ds start).product = ArrayProvenance.copy
    ∧ (subset_provenance ds start).enzyme = ArrayProvenance.copy
    ∧ (subset_provenance ds start).initial_substrate = ArrayProvenance.copy
    ∧ (subset_provenance ds start).inhibitor = ArrayProvenance.copy
    ∧ writeThrough ds ArrayProvenance.copy j v = ds
    ∧ (subset_provenance ds start).time
        = ArrayProvenance.timeView (sliceStart ds.time.length start)
    ∧ (writeThrough ds ((subset_provenance ds start).time) j v).time
        = ds.time.set (sliceStart ds.time.length start + j) v
    ∧ (j < (pySlice ds.time start stop).length →
        (writeThrough ds ((subset_provenance ds start).time) j v).time.getD
          (sliceStart ds.time.length start + j) 0 = v) := by
  refine ⟨rfl, rfl, rfl, rfl, rfl, rfl, rfl, rfl, fun hj => ?_⟩
  have hlen : sliceStart ds.time.length start + j < ds.time.length := by
    simp only [pySlice, List.length_take, List.length_drop] at hj
    omega
  simp only [subset_provenance, writeThrough]
  rw [getD_of_lt _ _ (by simpa using hlen)]
  exact List.getElem_set_self (by simpa using hlen)

/-- C9 amended, instantiated at a concrete dataset, start index 1 and an
in-range write position. -/
theorem c9_amended_witness :
    (0 : ℕ) < (pySlice dsA.time (some 1) none).length
    ∧ (writeThrough dsA ((subset_provenance dsA (some 1)).time) 0 99).time.getD
        (sliceStart dsA.time.length (some 1) + 0) 0 = 99 :=
  ⟨by with_unfolding_all decide,
   (c9_amended dsA (some 1) none 0 99).2.2.2.2.2.2.2.2
     (by with_unfolding_all decide)⟩

/-! ### C5 -/

/-- A product-measured experiment in which the derived substrate goes
negative (initial substrate 10, measured product reaches 15). -/
def expNeg : Experiment :=
  { stoichiometry := "product", time := [0, 1],
    measurements :=
      [ { initial_substrate_conc := 10, enzyme_conc := 1,
          inhibitor_conc := none, data := [[0, 15]] } ] }

/-- The dataset `expNeg` normalizes to before the negativity check. -/
def dsNeg : Dataset :=
  { time := [0, 1], substrate := [[10, -5]], product := [[0, 15]],
    enzyme := [1], initial_substrate := [10], inhibitor := [[0, 0]] }

/-- C5: construction checks the (raw or derived) substrate and product
arrays; a negative substrate entry aborts `__init__` with the error naming
the substrate array, a negative product entry (with clean substrate) with
the error naming the product array, and with no negative entry `__init__`
returns the estimator - so the error fires at construction time, before
any model can be built. -/
theorem c5_negative_concentration_gate (e : Experiment) (ds : Dataset)
    (h : initialize_measurement_data e = Except.ok ds) :
    (hasNegative ds.substrate = true →
       ParameterEstimator_init e =
         Except.error (EstError.negativeConc ConcArray.substrateData))
    ∧ (hasNegative ds.substrate = false → hasNegative ds.product = true →
       ParameterEstimator_init e =
         Except.error (EstError.negativeConc ConcArray.productData))
    ∧ (hasNegative ds.substrate = false → hasNegative ds.product = false →
       ParameterEstimator_init e = Except.ok
         { ds := ds, initial_kcat := calculate_kcat e.time ds.substrate ds.enzyme,
           initial_Km := calculate_Km e.time ds.substrate })
    ∧ (hasNegative ds.substrate = true ↔ ∃ row ∈ ds.substrate, ∃ v ∈ row, v < 0)
    ∧ (hasNegative ds.product = true ↔ ∃ row ∈ ds.product, ∃ v ∈ row, v < 0) := by
  refine ⟨fun hs => ?_, fun hs hp => ?_, fun hs hp => ?_, ?_, ?_⟩
  · simp [ParameterEstimator_init, h, check_negative_concentrations, hs]
  · simp [ParameterEstimator_init, h, check_negative_concentrations, hs, hp]
  · simp [ParameterEstimator_init, h, check_negative_concentrations, hs, hp]
  · simp [hasNegative]
  · simp [hasNegative]

/-- C5, instantiated at the spec's negative-concentration scenario:
initial substrate 10 with a measured product value of 15 makes the derived
substrate negative and construction fails naming the substrate array. -/
theorem c5_negative_concentration_gate_witness :
    initialize_measurement_data expNeg = Except.ok dsNeg
    ∧ hasNegative dsNeg.substrate = true
    ∧ ParameterEstimator_init expNeg =
        Except.error (EstError.negativeConc ConcArray.substrateData) :=
  ⟨by with_unfolding_all decide, by with_unfolding_all decide,
   (c5_negative_concentration_gate expNeg dsNeg (by with_unfolding_all decide)).1
     (by with_unfolding_all decide)⟩

/-! ### C1 -/

lemma init_ok_inv {e : Experiment} {est : Estimator}
    (h : ParameterEstimator_init e = Except.ok est) :
    initialize_measurement_data e = Except.ok est.ds := by
  rcases hini : initialize_measurement_data e with err | ds
  · simp only [ParameterEstimator_init, hini] at h
    exact absurd h (by simp)
  · simp only [ParameterEstimator_init, hini] at h
    rcases hchk : check_negative_concentrations ds with err2 | u
    · simp only [hchk] at h
      exact absurd h (by simp)
    · simp only [hchk, Except.ok.injEq] at h
      subst h
      rfl

lemma imd_ok_cases {e : Experiment} {ds : Dataset}
    (h : initialize_measurement_data e = Except.ok ds) :
    (ds.substrate = measurementRows e
      ∧ ds.product = calculate_product (measurementRows e) (initialSubstrateList e)
      ∧ ds.initial_substrate = initialSubstrateList e
      ∧ ds.enzyme = enzymeList e ∧ ds.time = e.time ∧ ds.inhibitor = inhibitorGrid e)
    ∨ (ds.substrate = calculate_substrate (measurementRows e) (initialSubstrateList e)
      ∧ ds.product = measurementRows e
      ∧ ds.initial_substrate = initialSubstrateList e
      ∧ ds.enzyme = enzymeList e ∧ ds.time = e.time ∧ ds.inhibitor = inhibitorGrid e) := by
  simp only [initialize_measurement_data] at h
  split_ifs at h
  · simp only [Except.ok.injEq] at h
    subst h
    exact Or.inl ⟨rfl, rfl, rfl, rfl, rfl, rfl⟩
  · simp only [Except.ok.injEq] at h
    subst h
    exact Or.inr ⟨rfl, rfl, rfl, rfl, rfl, rfl⟩

lemma counterpart_getD (rows : List (List ℚ)) (inits : List ℚ)
    (i t : ℕ) (hi : i < (rows.zip inits).length)
    (ht : t < (rows.getD i []).length) :
    (((rows.zip inits).map (fun p => p.1.map (fun value => p.2 - value))).getD i []).getD t 0
      = inits.getD i 0 - (rows.getD i []).getD t 0 := by
  have hir : i < rows.length := by rw [List.length_zip] at hi; omega
  have hii : i < inits.length := by rw [List.length_zip] at hi; omega
  have hmap : i < ((rows.zip inits).map
      (fun p => p.1.map (fun value => p.2 - value))).length := by simpa using hi
  have e1 : ((rows.zip inits).map (fun p => p.1.map (fun value => p.2 - value))).getD i []
      = rows[i].map (fun value => inits[i] - value) := by
    rw [getD_of_lt ((rows.zip inits).map (fun p => p.1.map (fun value => p.2 - value)))
          [] hmap]
    simp [List.getElem_zip]
  have e2 : rows.getD i [] = rows[i] := getD_of_lt rows [] hir
  have e3 : inits.getD i 0 = inits[i] := getD_of_lt inits 0 hii
  have ht2 : t < rows[i].length := by rwa [e2] at ht
  rw [e1, e2, e3,
      getD_of_lt (rows[i].map (fun value => inits[i] - value)) 0 (by simpa using ht2),
      getD_of_lt rows[i] 0 ht2]
  simp

lemma counterpart_getD_length (rows : List (List ℚ)) (inits : List ℚ)
    (i : ℕ) (hi : i < (rows.zip inits).length) :
    ((((rows.zip inits)).map (fun p => p.1.map (fun value => p.2 - value))).getD i []).length
      = (rows.getD i []).length := by
  have hir : i < rows.length := by rw [List.length_zip] at hi; omega
  have hmap : i < ((rows.zip inits).map
      (fun p => p.1.map (fun value => p.2 - value))).length := by simpa using hi
  rw [getD_of_lt ((rows.zip inits).map (fun p => p.1.map (fun value => p.2 - value)))
        [] hmap,
      getD_of_lt rows [] hir]
  simp [List.getElem_zip]

/-- C1: for any experiment accepted by `__init__` (recognized
stoichiometry, non-negative data), every row `i` and time index `t` of the
normalized dataset satisfies the mass balance
`product[i, t] + substrate[i, t] = initial_substrate[i]`: whichever of the
pair was not measured is derived elementwise as
`initial_substrate - measured`. -/
theorem c1_mass_balance (e : Experiment) (est : Estimator)
    (h : ParameterEstimator_init e = Except.ok est)
    (i t : ℕ) (hi : i < est.ds.substrate.length)
    (ht : t < (est.ds.substrate.getD i []).length) :
    (est.ds.product.getD i []).getD t 0 + (est.ds.substrate.getD i []).getD t 0
      = est.ds.initial_substrate.getD i 0 := by
  have hlen := initialSubstrateList_length e
  rcases imd_ok_cases (init_ok_inv h) with ⟨hs, hp, hinit, _, _, _⟩ | ⟨hs, hp, hinit, _, _, _⟩
  · rw [hs] at hi ht
    have hiz : i < ((measurementRows e).zip (initialSubstrateList e)).length := by
      rw [List.length_zip]; omega
    rw [hs, hp, hinit, calculate_product, counterpart_getD _ _ i t hiz ht]
    ring
  · rw [hs] at hi ht
    rw [calculate_substrate, List.length_map, List.length_zip] at hi
    have hiz : i < ((measurementRows e).zip (initialSubstrateList e)).length := by
      rw [List.length_zip]; omega
    have ht2 : t < ((measurementRows e).getD i []).length := by
      rw [calculate_substrate, counterpart_getD_length _ _ i hiz] at ht
      exact ht
    rw [hs, hp, hinit, calculate_substrate, counterpart_getD _ _ i t hiz ht2]
    ring

/-- C1, instantiated at a concrete product-measured experiment:
`product[0, 1] + substrate[0, 1] = 1 + 9 = 10 = initial_substrate[0]`. -/
theorem c1_mass_balance_witness :
    ParameterEstimator_init expA = Except.ok estA
    ∧ (0 : ℕ) < estA.ds.substrate.length
    ∧ (1 : ℕ) < (estA.ds.substrate.getD 0 []).length
    ∧ (estA.ds.product.getD 0 []).getD 1 0 + (estA.ds.substrate.getD 0 []).getD 1 0
        = estA.ds.initial_substrate.getD 0 0 :=
  ⟨by with_unfolding_all decide, by with_unfolding_all decide,
   by with_unfolding_all decide,
   c1_mass_balance expA estA (by with_unfolding_all decide) 0 1
     (by with_unfolding_all decide) (by with_unfolding_all decide)⟩

/-! ### C4 -/

lemma range_map_getD {α : Type} (f : ℕ → α) (n : ℕ) (d : α) {i : ℕ} (h : i < n) :
    ((List.range n).map f).getD i d = f i := by
  rw [getD_of_lt _ _ (by simpa using h), List.getElem_map, List.getElem_range]

lemma pySlice_natCast_none {α : Type} (l : List α) (s : ℕ) :
    pySlice l (some (s : ℤ)) none = l.drop (min s l.length) := by
  unfold pySlice sliceStart sliceStop resolveIndex
  simp only [Option.elim]
  rw [if_neg (by omega : ¬ ((s : ℤ) < 0))]
  rw [Int.toNat_ofNat]
  exact List.take_of_length_le (by rw [List.length_drop])

lemma drop_getD_zero {α : Type} (l : List α) (s : ℕ) (d : α) (h : s < l.length) :
    (l.drop s).getD 0 d = l.getD s d := by
  have h0 : 0 < (l.drop s).length := by rw [List.length_drop]; omega
  rw [getD_of_lt _ _ h0, getD_of_lt _ _ h, List.getElem_drop]
  simp

lemma subset_row_first {l : List ℚ} {s : ℕ} (h : s < l.length) :
    (pySlice l (some (s : ℤ)) none).getD 0 0 = l.getD s 0 := by
  rw [pySlice_natCast_none, min_eq_left h.le, drop_getD_zero _ _ _ h]

lemma mem_initialize_models {self_inhibitor substrate product : List (List ℚ)}
    {enzyme : List ℚ} {inhibitor : List (List ℚ)} {kcat Km : ℚ} {ei : Bool}
    {m : KineticModel}
    (hm : m ∈ initialize_models self_inhibitor kcat Km ei substrate product enzyme
      inhibitor) :
    m.cS = substrate ∧ m.cE = enzyme ∧ m.cP = product
    ∧ (m.cI = inhibitor ∨ m.cI = product ∨ m.cI = substrate) := by
  unfold initialize_models at hm
  split_ifs at hm
  · simp only [List.mem_cons, List.not_mem_nil, or_false] at hm
    rcases hm with rfl | rfl | rfl | rfl | rfl
    all_goals refine ⟨rfl, rfl, rfl, ?_⟩
    · exact Or.inl rfl
    · exact Or.inr (Or.inl rfl)
    · exact Or.inr (Or.inl rfl)
    · exact Or.inr (Or.inl rfl)
    · exact Or.inr (Or.inr rfl)
  · simp only [List.mem_cons, List.not_mem_nil, or_false] at hm
    rcases hm with rfl | rfl | rfl | rfl
    all_goals exact ⟨rfl, rfl, rfl, Or.inl rfl⟩

/-- The model list built by `fit_models` on `estA` with
`start_time_index = 1`. -/
def modelsA : List KineticModel :=
  (fit_models_build estA none (some 1) none false).toOption.getD []

/-- C4 counterexample: on a concrete dataset, fitting with
`start_time_index = 1` assembles the initial state from the first column
of the subset arrays - which is the raw arrays' column 1, not column 0: the
assembled tuple is `(9, 1, 1, 0)`, not the claimed
`(substrate[0, 0], enzyme[0], product[0, 0], inhibitor[0, 0]) = (10, 1, 0, 0)`. -/
theorem c4_counterexample :
    assemble_w0 (modelsA.headD emptyModel) 0
      ≠ ((estA.ds.substrate.getD 0 []).getD 0 0, estA.ds.enzyme.getD 0 0,
         (estA.ds.product.getD 0 []).getD 0 0, (estA.ds.inhibitor.getD 0 []).getD 0 0)
    ∧ assemble_w0 (modelsA.headD emptyModel) 0
      = ((estA.ds.substrate.getD 0 []).getD 1 0, estA.ds.enzyme.getD 0 0,
         (estA.ds.product.getD 0 []).getD 1 0, (estA.ds.inhibitor.getD 0 []).getD 0 0) := by
  with_unfolding_all decide

/-- C4 amended: for every model built by `fit_models` with a
start-time-index subset `s` (no concentration filter), the ODE initial
state of row `i` is the first time-column of the *subset* arrays, i.e. the
raw arrays' column `s`: `(substrate[i, s], enzyme[i], product[i, s], cI[i, 0])`
- the initial state shifts together with the subset window. The driver
slot is the subset inhibitor row (not time-sliced), or the subset
product/substrate column `s`, depending on the mechanism. -/
theorem c4_amended (est : Estimator) (s i : ℕ) (ei : Bool)
    (models : List KineticModel) (m : KineticModel)
    (h : fit_models_build est none (some (s : ℤ)) none ei = Except.ok models)
    (hm : m ∈ models)
    (hi : i < est.ds.substrate.length)
    (hsub : s < (est.ds.substrate.getD i []).length)
    (hprod : s < (est.ds.product.getD i []).length) :
    assemble_w0 m i
      = ((est.ds.substrate.getD i []).getD s 0, est.ds.enzyme.getD i 0,
         (est.ds.product.getD i []).getD s 0, (m.cI.getD i []).getD 0 0)
    ∧ ((m.cI.getD i []).getD 0 0 = (est.ds.substrate.getD i []).getD s 0
       ∨ (m.cI.getD i []).getD 0 0 = (est.ds.product.getD i []).getD s 0
       ∨ (m.cI.getD i []).getD 0 0 = (est.ds.inhibitor.getD i []).getD 0 0) := by
  by_cases hsz : s = 0
  · subst hsz
    have hfit : fit_models_build est none (some ((0 : ℕ) : ℤ)) none ei
        = Except.ok (initialize_models est.ds.inhibitor est.initial_kcat est.initial_Km
            ei est.ds.substrate est.ds.product est.ds.enzyme est.ds.inhibitor) := rfl
    rw [hfit, Except.ok.injEq] at h
    subst h
    obtain ⟨hcS, hcE, hcP, hcI⟩ := mem_initialize_models hm
    refine ⟨by simp [assemble_w0, hcS, hcE, hcP], ?_⟩
    rcases hcI with h1 | h1 | h1
    · exact Or.inr (Or.inr (by rw [h1]))
    · exact Or.inr (Or.inl (by rw [h1]))
    · exact Or.inl (by rw [h1])
  · have hcond : (truthyOptList (none : Option (List ℚ))
        || truthyOptInt (some ((s : ℕ) : ℤ)) || truthyOptInt none) = true := by
      simp [truthyOptInt, truthyOptList, Option.elim, hsz]
    have hse : subset_data est.ds none (some ((s : ℕ) : ℤ)) none = Except.ok
        { substrate := (List.range est.ds.substrate.length).map
            (fun j => pySlice (est.ds.substrate.getD j []) (some ((s : ℕ) : ℤ)) none),
          product := (List.range est.ds.substrate.length).map
            (fun j => pySlice (est.ds.product.getD j []) (some ((s : ℕ) : ℤ)) none),
          enzyme := (List.range est.ds.substrate.length).map
            (fun j => est.ds.enzyme.getD j 0),
          initial_substrate := (List.range est.ds.substrate.length).map
            (fun j => est.ds.initial_substrate.getD j 0),
          time := pySlice est.ds.time (some ((s : ℕ) : ℤ)) none,
          inhibitor := (List.range est.ds.substrate.length).map
            (fun j => est.ds.inhibitor.getD j []) } := rfl
    unfold fit_models_build fit_arrays at h
    rw [hcond] at h
    simp only [if_true, hse, Except.ok.injEq] at h
    subst h
    obtain ⟨hcS, hcE, hcP, hcI⟩ := mem_initialize_models hm
    have eS : (m.cS.getD i []).getD 0 0 = (est.ds.substrate.getD i []).getD s 0 := by
      rw [hcS, range_map_getD _ _ [] hi, subset_row_first hsub]
    have eE : m.cE.getD i 0 = est.ds.enzyme.getD i 0 := by
      rw [hcE, range_map_getD _ _ 0 hi]
    have eP : (m.cP.getD i []).getD 0 0 = (est.ds.product.getD i []).getD s 0 := by
      rw [hcP, range_map_getD _ _ [] hi, subset_row_first hprod]
    refine ⟨by rw [assemble_w0, eS, eE, eP], ?_⟩
    rcases hcI with h1 | h1 | h1
    · exact Or.inr (Or.inr (by rw [h1, range_map_getD _ _ [] hi]))
    · exact Or.inr (Or.inl (by rw [h1, range_map_getD _ _ [] hi, subset_row_first hprod]))
    · exact Or.inl (by rw [h1, range_map_getD _ _ [] hi, subset_row_first hsub])

/-- C4 amended, instantiated at `estA`, start index 1, row 0 and the first
built model. -/
theorem c4_amended_witness :
    fit_models_build estA none (some ((1 : ℕ) : ℤ)) none false = Except.ok modelsA
    ∧ modelsA.headD emptyModel ∈ modelsA
    ∧ (0 : ℕ) < estA.ds.substrate.length
    ∧ (1 : ℕ) < (estA.ds.substrate.getD 0 []).length
    ∧ (1 : ℕ) < (estA.ds.product.getD 0 []).length
    ∧ (assemble_w0 (modelsA.headD emptyModel) 0
        = ((estA.ds.substrate.getD 0 []).getD 1 0, estA.ds.enzyme.getD 0 0,
           (estA.ds.product.getD 0 []).getD 1 0,
           ((modelsA.headD emptyModel).cI.getD 0 []).getD 0 0)
       ∧ (((modelsA.headD emptyModel).cI.getD 0 []).getD 0 0
            = (estA.ds.substrate.getD 0 []).getD 1 0
          ∨ ((modelsA.headD emptyModel).cI.getD 0 []).getD 0 0
            = (estA.ds.product.getD 0 []).getD 1 0
          ∨ ((modelsA.headD emptyModel).cI.getD 0 []).getD 0 0
            = (estA.ds.inhibitor.getD 0 []).getD 0 0)) :=
  ⟨by with_unfolding_all decide, by with_unfolding_all decide,
   by with_unfolding_all decide, by with_unfolding_all decide,
   by with_unfolding_all decide,
   c4_amended estA 1 0 false modelsA (modelsA.headD emptyModel)
     (by with_unfolding_all decide) (by with_unfolding_all decide)
     (by with_unfolding_all decide) (by with_unfolding_all decide)
     (by with_unfolding_all decide)⟩

/-! ### C8 -/

/-- Whether an `Except` computation returned without raising. -/
def isOkB {ε α : Type} : Except ε α → Bool
  | Except.ok _ => true
  | Except.error _ => false

lemma buildSubsetIdx_find (init : List ℚ) (cs : List ℚ) :
    (cs.find? (fun c => decide (c ∉ init)) = none →
      ∃ idx, buildSubsetIdx init cs = Except.ok idx)
    ∧ (∀ c, cs.find? (fun c => decide (c ∉ init)) = some c →
      buildSubsetIdx init cs = Except.error (EstError.concNotFound c (npUnique init))) := by
  induction cs with
  | nil =>
    exact ⟨fun _ => ⟨[], rfl⟩, fun c hc => by simp [List.find?] at hc⟩
  | cons c rest ih =>
    by_cases hc : c ∈ init
    · have hfind : (c :: rest).find? (fun x => decide (x ∉ init))
          = rest.find? (fun x => decide (x ∉ init)) :=
        List.find?_cons_of_neg _ (by simp [hc])
      constructor
      · intro hnone
        rw [hfind] at hnone
        obtain ⟨idx, hidx⟩ := ih.1 hnone
        exact ⟨npWhereEq init c ++ idx, by simp [buildSubsetIdx, hc, hidx]⟩
      · intro c2 hc2
        rw [hfind] at hc2
        simp [buildSubsetIdx, hc, ih.2 c2 hc2]
    · have hfind : (c :: rest).find? (fun x => decide (x ∉ init)) = some c :=
        List.find?_cons_of_pos _ (by simp [hc])
      constructor
      · intro hnone
        rw [hfind] at hnone
        cases hnone
      · intro c2 hc2
        rw [hfind, Option.some.injEq] at hc2
        subst hc2
        simp [buildSubsetIdx, hc]

/-- C8: with an initial-substrate filter, `_subset_data` succeeds when
every requested value occurs in the dataset's initial-substrate array, and
fails with a `ValueError` exactly at the first absent requested value,
the error carrying the `np.unique` list of known concentrations - a
duplicate-free, ascending list whose members are exactly the known
initial-substrate concentrations. -/
theorem c8_selection_error (ds : Dataset) (cs : List ℚ) (start stop : Option ℤ) :
    (cs.find? (fun c => decide (c ∉ ds.initial_substrate)) = none →
       isOkB (subset_data ds (some cs) start stop) = true)
    ∧ (∀ c, cs.find? (fun c => decide (c ∉ ds.initial_substrate)) = some c →
       subset_data ds (some cs) start stop =
         Except.error (EstError.concNotFound c (npUnique ds.initial_substrate)))
    ∧ (∀ x, x ∈ npUnique ds.initial_substrate ↔ x ∈ ds.initial_substrate)
    ∧ (npUnique ds.initial_substrate).Nodup
    ∧ (npUnique ds.initial_substrate).Sorted (fun a b => a ≤ b) := by
  refine ⟨?_, ?_, ?_, ?_, ?_⟩
  · intro hnone
    cases cs with
    | nil => rfl
    | cons c0 rest =>
      obtain ⟨idx, hidx⟩ :=
        (buildSubsetIdx_find ds.initial_substrate (c0 :: rest)).1 hnone
      simp [subset_data, subsetIdx, hidx, isOkB]
  · intro c hc
    cases cs with
    | nil => simp [List.find?] at hc
    | cons c0 rest =>
      simp [subset_data, subsetIdx,
        (buildSubsetIdx_find ds.initial_substrate (c0 :: rest)).2 c hc]
  · intro x
    rw [npUnique, List.mem_insertionSort, List.mem_dedup]
  · exact (List.perm_insertionSort _ _).nodup_iff.mpr (List.nodup_dedup _)
  · exact List.sorted_insertionSort _ _

/-- C8, instantiated on a two-row dataset: the filter `[1]` (present)
succeeds, and the filter `[5]` (absent) fails carrying the unique known
concentrations. -/
theorem c8_selection_error_witness :
    ([1] : List ℚ).find? (fun c => decide (c ∉ dsB.initial_substrate)) = none
    ∧ isOkB (subset_data dsB (some [1]) none none) = true
    ∧ ([5] : List ℚ).find? (fun c => decide (c ∉ dsB.initial_substrate)) = some 5
    ∧ subset_data dsB (some [5]) none none =
        Except.error (EstError.concNotFound 5 (npUnique dsB.initial_substrate)) :=
  ⟨by with_unfolding_all decide,
   (c8_selection_error dsB [1] none none).1 (by with_unfolding_all decide),
   by with_unfolding_all decide,
   (c8_selection_error dsB [5] none none).2.1 5 (by with_unfolding_all decide)⟩

/-! ### C6 -/

/-- The spec's per-row, per-interval finite-difference rate
`abs((substrate[i, j+1] - substrate[i, j]) / (time[j+1] - time[j]))`
(comparison definition, written from the spec's formula with explicit
indices). -/
def specRate (time : List ℚ) (substrate : List (List ℚ)) (i j : ℕ) : ℚ :=
  |((substrate.getD i []).getD (j + 1) 0 - (substrate.getD i []).getD j 0)
    / (time.getD (j + 1) 0 - time.getD j 0)|

lemma npDiff_length (l : List ℚ) : (npDiff l).length = l.length - 1 := by
  simp only [npDiff, List.length_map, List.length_zip, List.length_tail]
  omega

lemma npDiff_getElem (l : List ℚ) {j : ℕ} (hj : j < (npDiff l).length) :
    (npDiff l)[j] = l.getD (j + 1) 0 - l.getD j 0 := by
  have hjl : j + 1 < l.length := by rw [npDiff_length] at hj; omega
  unfold npDiff at hj ⊢
  rw [List.getElem_map, List.getElem_zip]
  simp only [List.getElem_tail]
  rw [getD_of_lt l 0 hjl, getD_of_lt l 0 (by omega : j < l.length)]

lemma calculate_rates_row (time : List ℚ) (substrate : List (List ℚ))
    {i : ℕ} (hi : i < substrate.length)
    (hrow : (substrate.getD i []).length = time.length) :
    ((calculate_rates time substrate).getD i []).length = time.length - 1
    ∧ ∀ j, j + 1 < time.length →
        ((calculate_rates time substrate).getD i []).getD j 0
          = specRate time substrate i j := by
  have hiR : i < (calculate_rates time substrate).length := by
    simpa [calculate_rates] using hi
  have hR : (calculate_rates time substrate).getD i []
      = ((npDiff (substrate.getD i [])).zip (npDiff time)).map (fun p => |p.1 / p.2|) := by
    rw [getD_of_lt _ _ hiR]
    show (substrate.map
      (fun row => ((npDiff row).zip (npDiff time)).map (fun p => |p.1 / p.2|)))[i] = _
    rw [List.getElem_map, getD_of_lt substrate [] hi]
  have hlen : (((npDiff (substrate.getD i [])).zip (npDiff time)).map
      (fun p => |p.1 / p.2|)).length = time.length - 1 := by
    simp only [List.length_map, List.length_zip, npDiff_length, hrow]
    omega
  refine ⟨by rw [hR, hlen], fun j hj => ?_⟩
  have hjR : j < (((npDiff (substrate.getD i [])).zip (npDiff time)).map
      (fun p => |p.1 / p.2|)).length := by rw [hlen]; omega
  have hjd1 : j < (npDiff (substrate.getD i [])).length := by
    rw [npDiff_length, hrow]; omega
  have hjd2 : j < (npDiff time).length := by rw [npDiff_length]; omega
  rw [hR, getD_of_lt _ _ hjR, List.getElem_map, List.getElem_zip]
  show |(npDiff (substrate.getD i []))[j] / (npDiff time)[j]| = _
  rw [npDiff_getElem, npDiff_getElem]
  rfl

lemma rates_mem (time : List ℚ) (substrate : List (List ℚ))
    (hw : ∀ row ∈ substrate, row.length = time.length) (x : ℚ) :
    x ∈ (calculate_rates time substrate).flatten
      ↔ ∃ i j, i < substrate.length ∧ j + 1 < time.length
          ∧ x = specRate time substrate i j := by
  have hwD : ∀ i, i < substrate.length → (substrate.getD i []).length = time.length := by
    intro i hi
    rw [getD_of_lt substrate [] hi]
    exact hw _ (List.getElem_mem hi)
  rw [List.mem_flatten]
  constructor
  · rintro ⟨row, hrow, hx⟩
    obtain ⟨i, hiR, hrowi⟩ := List.mem_iff_getElem.mp hrow
    have hi : i < substrate.length := by simpa [calculate_rates] using hiR
    obtain ⟨j, hj, hxj⟩ := List.mem_iff_getElem.mp hx
    have hgetD : (calculate_rates time substrate).getD i [] = row := by
      rw [getD_of_lt _ _ hiR, hrowi]
    obtain ⟨hlen, hval⟩ := calculate_rates_row time substrate hi (hwD i hi)
    have hrl : row.length = time.length - 1 := by rw [← hgetD]; exact hlen
    have hj2 : j + 1 < time.length := by omega
    refine ⟨i, j, hi, hj2, ?_⟩
    rw [← hxj, ← getD_of_lt row 0 hj, ← hgetD]
    exact hval j hj2
  · rintro ⟨i, j, hi, hj, rfl⟩
    obtain ⟨hlen, hval⟩ := calculate_rates_row time substrate hi (hwD i hi)
    have hiR : i < (calculate_rates time substrate).length := by
      simpa [calculate_rates] using hi
    refine ⟨(calculate_rates time substrate).getD i [], ?_, ?_⟩
    · rw [getD_of_lt _ _ hiR]
      exact List.getElem_mem hiR
    · rw [← hval j hj]
      have hjlen : j < ((calculate_rates time substrate).getD i []).length := by
        rw [hlen]; omega
      rw [getD_of_lt _ _ hjlen]
      exact List.getElem_mem hjlen

lemma kcat_grid_mem (time : List ℚ) (substrate : List (List ℚ)) (enzyme : List ℚ)
    (hw : ∀ row ∈ substrate, row.length = time.length)
    (helen : enzyme.length = substrate.length) (x : ℚ) :
    x ∈ (((calculate_rates time substrate).zip enzyme).map
        (fun p => p.1.map (fun r => r / p.2))).flatten
      ↔ ∃ i j, i < substrate.length ∧ j + 1 < time.length
          ∧ x = specRate time substrate i j / enzyme.getD i 0 := by
  have hwD : ∀ i, i < substrate.length → (substrate.getD i []).length = time.length := by
    intro i hi
    rw [getD_of_lt substrate [] hi]
    exact hw _ (List.getElem_mem hi)
  have hRlen : (calculate_rates time substrate).length = substrate.length := by
    simp [calculate_rates]
  have hGlen : (((calculate_rates time substrate).zip enzyme).map
      (fun p => p.1.map (fun r => r / p.2))).length = substrate.length := by
    simp [List.length_zip, hRlen, helen]
  have hrowG : ∀ i, i < substrate.length →
      ((((calculate_rates time substrate).zip enzyme).map
        (fun p => p.1.map (fun r => r / p.2))).getD i [])
      = ((calculate_rates time substrate).getD i []).map
          (fun r => r / enzyme.getD i 0) := by
    intro i hi
    have hiG : i < (((calculate_rates time substrate).zip enzyme).map
        (fun p => p.1.map (fun r => r / p.2))).length := by rw [hGlen]; exact hi
    have hiR : i < (calculate_rates time substrate).length := by rw [hRlen]; exact hi
    have hiE : i < enzyme.length := by rw [helen]; exact hi
    rw [getD_of_lt _ _ hiG, List.getElem_map, List.getElem_zip,
        getD_of_lt _ _ hiR, getD_of_lt _ _ hiE]
  constructor
  · intro hx
    rw [List.mem_flatten] at hx
    obtain ⟨rowG, hmem, hxr⟩ := hx
    obtain ⟨i, hiG, hrowi⟩ := List.mem_iff_getElem.mp hmem
    have hi : i < substrate.length := by rw [hGlen] at hiG; exact hiG
    have hrGD : ((((calculate_rates time substrate).zip enzyme).map
        (fun p => p.1.map (fun r => r / p.2))).getD i []) = rowG := by
      rw [getD_of_lt _ _ hiG, hrowi]
    rw [← hrGD, hrowG i hi, List.mem_map] at hxr
    obtain ⟨r, hr, hxval⟩ := hxr
    obtain ⟨j, hj, hrj⟩ := List.mem_iff_getElem.mp hr
    obtain ⟨hlen, hval⟩ := calculate_rates_row time substrate hi (hwD i hi)
    have hj2 : j + 1 < time.length := by rw [hlen] at hj; omega
    refine ⟨i, j, hi, hj2, ?_⟩
    rw [← hxval, ← hrj, ← getD_of_lt _ _ hj, hval j hj2]
  · rintro ⟨i, j, hi, hj, rfl⟩
    obtain ⟨hlen, hval⟩ := calculate_rates_row time substrate hi (hwD i hi)
    have hiG : i < (((calculate_rates time substrate).zip enzyme).map
        (fun p => p.1.map (fun r => r / p.2))).length := by rw [hGlen]; exact hi
    rw [List.mem_flatten]
    refine ⟨(((calculate_rates time substrate).zip enzyme).map
        (fun p => p.1.map (fun r => r / p.2))).getD i [], ?_, ?_⟩
    · rw [getD_of_lt _ _ hiG]
      exact List.getElem_mem hiG
    · rw [hrowG i hi, List.mem_map]
      refine ⟨specRate time substrate i j, ?_, rfl⟩
      rw [← hval j hj]
      have hjlen : j < ((calculate_rates time substrate).getD i []).length := by
        rw [hlen]; omega
      rw [getD_of_lt _ _ hjlen]
      exact List.getElem_mem hjlen

lemma nanmax2_spec (a : List (List ℚ)) (hne : a.flatten ≠ []) :
    (∀ x ∈ a.flatten, x ≤ nanmax2 a) ∧ nanmax2 a ∈ a.flatten := by
  rcases hmax : a.flatten.maximum with _ | m
  · exact absurd (List.maximum_eq_none.mp hmax) hne
  · have hval : nanmax2 a = m := by rw [nanmax2, hmax]; rfl
    refine ⟨fun x hx => ?_, ?_⟩
    · rw [hval]; exact List.le_maximum_of_mem hx hmax
    · rw [hval]; exact List.maximum_mem hmax

/-- C6: under valid data (at least one row, rows aligned to a time grid of
length at least two, positive enzyme concentrations, strictly increasing
times - the last two guarantee every float rate is finite, so the
`nanmax` reductions see no non-finite values), the catalytic-rate guess is
the global maximum over all rows and intervals of the finite-difference
rate `abs(dS/dt)` divided by the row's enzyme concentration, and twice the
Michaelis-constant guess is the global maximum raw rate (i.e. the guess is
half of it): both bounds are attained. -/
theorem c6_initial_guesses (time : List ℚ) (substrate : List (List ℚ))
    (enzyme : List ℚ)
    (hne : substrate ≠ [])
    (htlen : 2 ≤ time.length)
    (hw : ∀ row ∈ substrate, row.length = time.length)
    (helen : enzyme.length = substrate.length)
    (hepos : ∀ x ∈ enzyme, 0 < x)
    (hinc : time.Sorted (fun a b => a < b)) :
    (∀ i j, i < substrate.length → j + 1 < time.length →
        specRate time substrate i j / enzyme.getD i 0
          ≤ calculate_kcat time substrate enzyme)
    ∧ (∃ i j, i < substrate.length ∧ j + 1 < time.length ∧
        calculate_kcat time substrate enzyme
          = specRate time substrate i j / enzyme.getD i 0)
    ∧ (∀ i j, i < substrate.length → j + 1 < time.length →
        specRate time substrate i j ≤ 2 * calculate_Km time substrate)
    ∧ (∃ i j, i < substrate.length ∧ j + 1 < time.length ∧
        2 * calculate_Km time substrate = specRate time substrate i j) := by
  have hsp : 0 < substrate.length := List.length_pos.mpr hne
  have hkmem := kcat_grid_mem time substrate enzyme hw helen
  have hrmem := rates_mem time substrate hw
  have hGne : (((calculate_rates time substrate).zip enzyme).map
      (fun p => p.1.map (fun r => r / p.2))).flatten ≠ [] :=
    List.ne_nil_of_mem ((hkmem _).mpr ⟨0, 0, hsp, by omega, rfl⟩)
  obtain ⟨hub, hmem⟩ := nanmax2_spec _ hGne
  have hRne : (calculate_rates time substrate).flatten ≠ [] :=
    List.ne_nil_of_mem ((hrmem _).mpr ⟨0, 0, hsp, by omega, rfl⟩)
  obtain ⟨hub2, hmem2⟩ := nanmax2_spec _ hRne
  have h2Km : 2 * calculate_Km time substrate
      = nanmax2 (calculate_rates time substrate) := by
    rw [calculate_Km]; ring
  refine ⟨?_, ?_, ?_, ?_⟩
  · intro i j hi hj
    exact hub _ ((hkmem _).mpr ⟨i, j, hi, hj, rfl⟩)
  · exact (hkmem _).mp hmem
  · intro i j hi hj
    rw [h2Km]
    exact hub2 _ ((hrmem _).mpr ⟨i, j, hi, hj, rfl⟩)
  · obtain ⟨i, j, hi, hj, hx⟩ := (hrmem _).mp hmem2
    exact ⟨i, j, hi, hj, by rw [h2Km, hx]⟩

/-- C6, instantiated at a concrete experiment: the rate grid is `[[1, 1]]`,
so the catalytic-rate guess 1 equals the maximal rate over enzyme 1 and the
Michaelis guess is half the maximal rate. -/
theorem c6_initial_guesses_witness :
    dsA.substrate ≠ []
    ∧ 2 ≤ expA.time.length
    ∧ (∀ row ∈ dsA.substrate, row.length = expA.time.length)
    ∧ dsA.enzyme.length = dsA.substrate.length
    ∧ (∀ x ∈ dsA.enzyme, 0 < x)
    ∧ expA.time.Sorted (fun a b => a < b)
    ∧ ((∀ i j, i < dsA.substrate.length → j + 1 < expA.time.length →
          specRate expA.time dsA.substrate i j / dsA.enzyme.getD i 0
            ≤ calculate_kcat expA.time dsA.substrate dsA.enzyme)
       ∧ (∃ i j, i < dsA.substrate.length ∧ j + 1 < expA.time.length ∧
          calculate_kcat expA.time dsA.substrate dsA.enzyme
            = specRate expA.time dsA.substrate i j / dsA.enzyme.getD i 0)
       ∧ (∀ i j, i < dsA.substrate.length → j + 1 < expA.time.length →
          specRate expA.time dsA.substrate i j
            ≤ 2 * calculate_Km expA.time dsA.substrate)
       ∧ (∃ i j, i < dsA.substrate.length ∧ j + 1 < expA.time.length ∧
          2 * calculate_Km expA.time dsA.substrate
            = specRate expA.time dsA.substrate i j)) :=
  ⟨by with_unfolding_all decide, by with_unfolding_all decide,
   by with_unfolding_all decide, by with_unfolding_all decide,
   by with_unfolding_all decide, by with_unfolding_all decide,
   c6_initial_guesses expA.time dsA.substrate dsA.enzyme
     (by with_unfolding_all decide) (by with_unfolding_all decide)
     (by with_unfolding_all decide) (by with_unfolding_all decide)
     (by with_unfolding_all decide) (by with_unfolding_all decide)⟩

/-! ### C7 -/

lemma mem_npWhereEq {l : List ℚ} {c : ℚ} {i : ℕ} :
    i ∈ npWhereEq l c ↔ i < l.length ∧ l.getD i 0 = c := by
  simp [npWhereEq, List.mem_filter, List.mem_range]

lemma mem_npUnique {l : List ℚ} {c : ℚ} : c ∈ npUnique l ↔ c ∈ l := by
  rw [npUnique, List.mem_insertionSort, List.mem_dedup]

lemma buildSubsetIdx_ok (init : List ℚ) (cs : List ℚ)
    (hall : ∀ c ∈ cs, c ∈ init) :
    buildSubsetIdx init cs = Except.ok (cs.flatMap (fun c => npWhereEq init c)) := by
  induction cs with
  | nil => rfl
  | cons c rest ih =>
    have hc : c ∈ init := hall c (List.mem_cons_self c rest)
    rw [List.flatMap_cons]
    simp [buildSubsetIdx, hc, ih (fun x hx => hall x (List.mem_cons_of_mem c hx))]

lemma sorted_flatMap_where (l : List ℚ) (hs : l.Sorted (fun a b => a ≤ b)) :
    ∀ us : List ℚ, us.Sorted (fun a b => a < b) →
      (us.flatMap (fun c => npWhereEq l c)).Sorted (fun a b => a < b)
  | [], _ => by simp
  | c :: rest, hu => by
    rw [List.flatMap_cons]
    rw [List.Sorted, List.pairwise_append]
    refine ⟨List.Pairwise.filter _ (List.pairwise_lt_range _),
            sorted_flatMap_where l hs rest hu.of_cons, ?_⟩
    intro x hx y hy
    obtain ⟨hxlen, hxval⟩ := mem_npWhereEq.mp hx
    rw [List.mem_flatMap] at hy
    obtain ⟨c2, hc2, hy2⟩ := hy
    obtain ⟨hylen, hyval⟩ := mem_npWhereEq.mp hy2
    have hcc : c < c2 := (List.pairwise_cons.mp hu).1 c2 hc2
    by_contra hxy
    push_neg at hxy
    have hle : l.getD y 0 ≤ l.getD x 0 := by
      rcases Nat.lt_or_ge y x with hlt | hge
      · have h1 := List.pairwise_iff_getElem.mp hs y x hylen hxlen hlt
        rwa [getD_of_lt l 0 hylen, getD_of_lt l 0 hxlen]
      · have hxyeq : x = y := by omega
        rw [hxyeq]
    rw [hxval, hyval] at hle
    exact absurd hle (not_le.mpr hcc)

lemma sorted_unique_flatMap_where (l : List ℚ) (hs : l.Sorted (fun a b => a ≤ b)) :
    (npUnique l).flatMap (fun c => npWhereEq l c) = List.range l.length := by
  have sortedLE : (npUnique l).Sorted (fun a b => a ≤ b) :=
    List.sorted_insertionSort _ _
  have nodupU : (npUnique l).Nodup :=
    (List.perm_insertionSort _ _).nodup_iff.mpr (List.nodup_dedup _)
  have sortedU : (npUnique l).Sorted (fun a b => a < b) :=
    (sortedLE.and nodupU).imp (fun h => lt_of_le_of_ne h.1 h.2)
  have sortedA := sorted_flatMap_where l hs (npUnique l) sortedU
  have nodupA : ((npUnique l).flatMap (fun c => npWhereEq l c)).Nodup :=
    sortedA.imp (fun h => ne_of_lt h)
  have hmemA : ∀ x, x ∈ (npUnique l).flatMap (fun c => npWhereEq l c) ↔ x < l.length := by
    intro x
    rw [List.mem_flatMap]
    constructor
    · rintro ⟨c, _, hx⟩
      exact (mem_npWhereEq.mp hx).1
    · intro hx
      refine ⟨l.getD x 0, ?_, mem_npWhereEq.mpr ⟨hx, rfl⟩⟩
      rw [mem_npUnique, getD_of_lt l 0 hx]
      exact List.getElem_mem hx
  have hperm : List.Perm ((npUnique l).flatMap (fun c => npWhereEq l c))
      (List.range l.length) := by
    refine List.perm_of_nodup_nodup_toFinset_eq nodupA (List.nodup_range _) ?_
    ext x
    simp [hmemA x, List.mem_range]
  haveI : IsAntisymm ℕ (fun a b => a < b) :=
    ⟨fun a b h1 h2 => absurd h2 (Nat.lt_asymm h1)⟩
  exact List.eq_of_perm_of_sorted hperm sortedA (List.pairwise_lt_range _)

lemma pySlice_none_none {α : Type} (l : List α) : pySlice l none none = l := by
  unfold pySlice sliceStart sliceStop
  simp only [Option.elim, List.drop_zero, Nat.sub_zero]
  exact List.take_of_length_le (Nat.le_refl _)

lemma map_getD_range_self {α : Type} (l : List α) (d : α) :
    (List.range l.length).map (fun i => l.getD i d) = l := by
  apply List.ext_getElem
  · simp
  · intro i h1 h2
    simp only [List.getElem_map, List.getElem_range]
    exact getD_of_lt l d h2

/-- C7 counterexample: on a dataset whose rows are ordered by decreasing
initial substrate concentration, subsetting with the full set of known
concentrations (`np.unique` order `[1, 2]`) and no time bounds returns the
rows regrouped by filter order - the arrays come back with rows swapped,
not identical to the unsubset arrays. -/
theorem c7_counterexample :
    npUnique dsB.initial_substrate = [1, 2]
    ∧ subset_data dsB (some [1, 2]) none none ≠
        Except.ok { substrate := dsB.substrate, product := dsB.product,
                    enzyme := dsB.enzyme, initial_substrate := dsB.initial_substrate,
                    time := dsB.time, inhibitor := dsB.inhibitor }
    ∧ subset_data dsB (some [1, 2]) none none =
        Except.ok { substrate := [[2], [1]], product := [[0], [1]],
                    enzyme := [1, 1], initial_substrate := [1, 2],
                    time := [0], inhibitor := [[0], [0]] } := by
  with_unfolding_all decide

/-- C7 amended: subsetting with the full set of known initial-substrate
concentrations and no time bounds returns the rows regrouped in filter
order; the arrays are identical to the unsubset arrays when the rows are
ordered consistently with the filter - in particular whenever the row
order is non-decreasing in initial substrate concentration and the filter
is the ascending `np.unique` list. -/
theorem c7_amended (ds : Dataset) (cs : List ℚ)
    (hsort : ds.initial_substrate.Sorted (fun a b => a ≤ b))
    (hcs : cs = npUnique ds.initial_substrate)
    (hrows : ds.substrate.length = ds.initial_substrate.length)
    (hprod : ds.product.length = ds.initial_substrate.length)
    (henz : ds.enzyme.length = ds.initial_substrate.length)
    (hinh : ds.inhibitor.length = ds.initial_substrate.length) :
    subset_data ds (some cs) none none =
      Except.ok { substrate := ds.substrate, product := ds.product,
                  enzyme := ds.enzyme, initial_substrate := ds.initial_substrate,
                  time := ds.time, inhibitor := ds.inhibitor } := by
  subst hcs
  have hidx := buildSubsetIdx_ok ds.initial_substrate (npUnique ds.initial_substrate)
    (fun c hc => mem_npUnique.mp hc)
  rw [sorted_unique_flatMap_where _ hsort] at hidx
  rcases hu : npUnique ds.initial_substrate with _ | ⟨c, rest⟩
  · have hl : ds.initial_substrate = [] := by
      have hp := List.perm_insertionSort (fun a b => a ≤ b) ds.initial_substrate.dedup
      rw [show List.insertionSort (fun a b => a ≤ b) ds.initial_substrate.dedup
            = npUnique ds.initial_substrate from rfl, hu] at hp
      exact (List.dedup_eq_nil _).mp hp.nil_eq.symm
    have h0 : ds.initial_substrate.length = 0 := by rw [hl]; rfl
    simp only [subset_data, subsetIdx]
    have hsub0 : ds.substrate = [] := List.length_eq_zero.mp (by omega)
    have hprod0 : ds.product = [] := List.length_eq_zero.mp (by omega)
    have henz0 : ds.enzyme = [] := List.length_eq_zero.mp (by omega)
    have hinh0 : ds.inhibitor = [] := List.length_eq_zero.mp (by omega)
    rw [hsub0, hprod0, henz0, hinh0, hl]
    simp [pySlice_none_none]
  · rw [hu] at hidx
    simp only [subset_data, subsetIdx, hidx]
    refine congrArg Except.ok ?_
    simp only [SubsetData.mk.injEq]
    refine ⟨?_, ?_, ?_, ?_, pySlice_none_none _, ?_⟩
    · calc (List.range ds.initial_substrate.length).map
            (fun i => pySlice (ds.substrate.getD i []) none none)
          = (List.range ds.substrate.length).map (fun i => ds.substrate.getD i []) := by
            rw [hrows]; simp [pySlice_none_none]
        _ = ds.substrate := map_getD_range_self _ _
    · calc (List.range ds.initial_substrate.length).map
            (fun i => pySlice (ds.product.getD i []) none none)
          = (List.range ds.product.length).map (fun i => ds.product.getD i []) := by
            rw [hprod]; simp [pySlice_none_none]
        _ = ds.product := map_getD_range_self _ _
    · calc (List.range ds.initial_substrate.length).map (fun i => ds.enzyme.getD i 0)
          = (List.range ds.enzyme.length).map (fun i => ds.enzyme.getD i 0) := by
            rw [henz]
        _ = ds.enzyme := map_getD_range_self _ _
    · exact map_getD_range_self _ _
    · calc (List.range ds.initial_substrate.length).map (fun i => ds.inhibitor.getD i [])
          = (List.range ds.inhibitor.length).map (fun i => ds.inhibitor.getD i []) := by
            rw [hinh]
        _ = ds.inhibitor := map_getD_range_self _ _

/-- C7 amended, instantiated at a sorted one-row dataset with the full
filter `[10]`. -/
theorem c7_amended_witness :
    dsA.initial_substrate.Sorted (fun a b => a ≤ b)
    ∧ ([10] : List ℚ) = npUnique dsA.initial_substrate
    ∧ dsA.substrate.length = dsA.initial_substrate.length
    ∧ dsA.product.length = dsA.initial_substrate.length
    ∧ dsA.enzyme.length = dsA.initial_substrate.length
    ∧ dsA.inhibitor.length = dsA.initial_substrate.length
    ∧ subset_data dsA (some [10]) none none =
        Except.ok { substrate := dsA.substrate, product := dsA.product,
                    enzyme := dsA.enzyme, initial_substrate := dsA.initial_substrate,
                    time := dsA.time, inhibitor := dsA.inhibitor } :=
  ⟨by with_unfolding_all decide, by with_unfolding_all decide,
   by with_unfolding_all decide, by with_unfolding_all decide,
   by with_unfolding_all decide, by with_unfolding_all decide,
   c7_amended dsA [10] (by with_unfolding_all decide) (by with_unfolding_all decide)
     (by with_unfolding_all decide) (by with_unfolding_all decide)
     (by with_unfolding_all decide) (by with_unfolding_all decide)⟩

end EnzymePynetics
